import Mathlib

/-!
# Dashboard assembly of `atc/db/job_factory.go`

A shallow embedding of the job factory of the `db` package: the visibility
scoped job selection (`VisibleJobs`, `AllActiveJobs`) and the batched
resolution of the three pointer builds of every job (`getBuildsFrom`,
`buildDashboard`).

The relational store is a value of type `Conn`.  Every function that talks to
the store threads the list of the statements issued so far (`Log`) and returns
the Go pair `(value, error)` as an `Except Error _` next to the new log.
-/

namespace db

/-! ## Data model -/

/-- Go `error` values, identified by their message. -/
abbrev Error := String

/-- A row of `teams`. -/
structure Team where
  name : String
deriving DecidableEq, Repr

/-- A row of `pipelines` together with the team that owns it. -/
structure Pipeline where
  team : Team
  public : Bool
deriving DecidableEq, Repr

/-- A row of `jobs` together with the pipeline it belongs to. -/
structure Job where
  id : Int
  pipeline : Pipeline
  active : Bool
  next_build_id : Option Int
  latest_completed_build_id : Option Int
  transition_build_id : Option Int
deriving DecidableEq, Repr

/-- A row of `builds`; `status` stands for the execution metadata. -/
structure Build where
  id : Int
  job_id : Int
  status : String
deriving DecidableEq, Repr

/-- The getter `job.ID()`. -/
def Job.ID (job : Job) : Int := job.id

/-- The getter `build.JobID()`. -/
def Build.JobID (build : Build) : Int := build.job_id

abbrev Jobs := List Job

/-- The Go struct `DashboardJob`; a nil build is `none`. -/
structure DashboardJob where
  Job : Job
  NextBuild : Option Build
  FinishedBuild : Option Build
  TransitionBuild : Option Build
deriving DecidableEq, Repr

abbrev Dashboard := List DashboardJob

/-- The three column names `getBuildsFrom` is called with. -/
inductive PointerColumn
  | next_build_id
  | latest_completed_build_id
  | transition_build_id
deriving DecidableEq, Repr

/-- The value of column `j.<col>` in a job row (`none` is SQL NULL). -/
def Job.column (job : Job) : PointerColumn → Option Int
  | .next_build_id => job.next_build_id
  | .latest_completed_build_id => job.latest_completed_build_id
  | .transition_build_id => job.transition_build_id

/-! ## The statements built with squirrel -/

/-- One `column: value` item of an `sq.Eq` or `sq.NotEq` literal. -/
inductive Cond
  | t_name (teamNames : List String)
  | j_active (v : Bool)
  | p_public (v : Bool)
  | j_id (jobIDs : List Int)
deriving DecidableEq, Repr

/-- The predicates handed to `Where`: `sq.Eq{...}`, `sq.NotEq{...}` and
`sq.Expr("j." + col + " = b.id")`. -/
inductive Sqlizer
  | Eq (conds : List Cond)
  | NotEq (conds : List Cond)
  | Expr (col : PointerColumn)
deriving DecidableEq, Repr

/-- The two base statements of the package. -/
inductive Base
  | jobsQuery
  | buildsQuery
deriving DecidableEq, Repr

/-- The term `"j.id ASC"` of an `OrderBy`. -/
inductive OrderTerm
  | j_id_ASC
deriving DecidableEq, Repr

/-- A squirrel `SelectBuilder`: a base statement, the `Where` parts and the
`OrderBy` parts added to it. -/
structure SelectBuilder where
  base : Base
  wheres : List Sqlizer
  orderBys : List OrderTerm
deriving DecidableEq, Repr

def SelectBuilder.Where (q : SelectBuilder) (pred : Sqlizer) : SelectBuilder :=
  { q with wheres := q.wheres ++ [pred] }

def SelectBuilder.OrderBy (q : SelectBuilder) (o : OrderTerm) : SelectBuilder :=
  { q with orderBys := q.orderBys ++ [o] }

/-- Modelled from the spec: `jobsQuery` is declared outside `job_factory.go`.
It selects the job rows joined with their pipeline and team
(`FROM jobs j JOIN pipelines p JOIN teams t`). -/
def jobsQuery : SelectBuilder := ⟨.jobsQuery, [], []⟩

/-- Modelled from the spec: `buildsQuery` is declared outside
`job_factory.go`.  It selects build rows joined with job rows
(`SELECT b.* FROM builds b JOIN jobs j`); the join condition
`j.<pointer_column> = b.id` is the `Where` that `getBuildsFrom` adds. -/
def buildsQuery : SelectBuilder := ⟨.buildsQuery, [], []⟩

/-- A row of a joined statement: the job columns and, for `buildsQuery`, the
build columns. -/
structure Row where
  j : Job
  b : Option Build
deriving DecidableEq, Repr

/-- Truth of one `column: value` item on a row.  A list value is SQL `IN`;
squirrel renders the empty list as `(1=0)`. -/
def Cond.holds (r : Row) : Cond → Bool
  | .t_name teamNames => teamNames.contains r.j.pipeline.team.name
  | .j_active v => r.j.active == v
  | .p_public v => r.j.pipeline.public == v
  | .j_id jobIDs => jobIDs.contains r.j.id

/-- Truth of a `Where` part on a row: the items of `sq.Eq` all hold, the items
of `sq.NotEq` all fail, and the raw expression compares `j.<col>` with `b.id`
(false when `j.<col>` is NULL). -/
def Sqlizer.holds (r : Row) : Sqlizer → Bool
  | .Eq conds => conds.all (fun c => c.holds r)
  | .NotEq conds => conds.all (fun c => !c.holds r)
  | .Expr col =>
    match r.b with
    | some b => r.j.column col == some b.id
    | none => false

/-- Rows in ascending `j.id` (`ORDER BY j.id ASC`), as a stable insertion
sort. -/
def orderRows (_o : OrderTerm) (rows : List Row) : List Row :=
  rows.insertionSort (fun r₁ r₂ => r₁.j.id ≤ r₂.j.id)

/-! ## The connection -/

/-- The statements issued on a connection, oldest first. -/
abbrev Log := List SelectBuilder

/-- A connection to the store: the job rows (each with its pipeline and team),
the build rows, and the failures of the store.  `queryErr log q` is the error,
if any, with which statement `q` fails when issued after the statements in
`log`; `scanJobErr` and `scanBuildErr` are the decode failures of a row. -/
structure Conn where
  jobs : List Job
  builds : List Build
  queryErr : Log → SelectBuilder → Option Error
  scanJobErr : Job → Option Error
  scanBuildErr : Build → Option Error

/-- The rows of a base statement before any `Where`. -/
def Conn.baseRows (conn : Conn) : Base → List Row
  | .jobsQuery => conn.jobs.map (fun j => ⟨j, none⟩)
  | .buildsQuery => conn.builds.flatMap (fun b => conn.jobs.map (fun j => ⟨j, some b⟩))

/-- The rows a statement selects: the base rows that satisfy every `Where`
part, ordered by the `OrderBy` parts. -/
def Conn.rows (conn : Conn) (q : SelectBuilder) : List Row :=
  q.orderBys.foldr orderRows
    ((conn.baseRows q.base).filter (fun r => q.wheres.all (fun w => w.holds r)))

/-- `q.RunWith(conn).Query()`: the statement is recorded in the log and either
fails or yields its rows. -/
def Conn.Query (conn : Conn) (q : SelectBuilder) (log : Log) :
    Except Error (List Row) × Log :=
  match conn.queryErr log q with
  | some err => (.error err, log ++ [q])
  | none => (.ok (conn.rows q), log ++ [q])

/-- Modelled from the spec: `scanJobs` is declared outside `job_factory.go`
(`scanJobs(rows) -> Jobs, error`).  It decodes the rows in order and stops at
the first decode failure. -/
def scanJobs (conn : Conn) : List Row → Except Error Jobs
  | [] => .ok []
  | r :: rows =>
    match conn.scanJobErr r.j with
    | some err => .error err
    | none =>
      match scanJobs conn rows with
      | .error err => .error err
      | .ok jobs => .ok (r.j :: jobs)

/-- Modelled from the spec: `scanBuild` is declared outside `job_factory.go`
(`scanBuild(row) -> Build, error`).  It decodes the build columns of a row. -/
def scanBuild (conn : Conn) (r : Row) : Except Error Build :=
  match r.b with
  | none => .error "sql: no build columns in row"
  | some b =>
    match conn.scanBuildErr b with
    | some err => .error err
    | none => .ok b

/-- A Go `map[int]Build`: at most one build under each key. -/
abbrev BuildMap := Int → Option Build

/-- The map `make(map[int]Build)`. -/
def BuildMap.empty : BuildMap := fun _ => none

/-- The assignment `builds[k] = build`. -/
def BuildMap.set (builds : BuildMap) (k : Int) (build : Build) : BuildMap :=
  fun i => if i = k then some build else builds i

/-! ## The job factory -/

structure jobFactory where
  conn : Conn

/-- The loop `for rows.Next() { ... builds[build.JobID()] = build }`. -/
def getBuildsFrom.scan (conn : Conn) : List Row → BuildMap → Except Error BuildMap
  | [], builds => .ok builds
  | r :: rows, builds =>
    match scanBuild conn r with
    | .error err => .error err
    | .ok build => getBuildsFrom.scan conn rows (builds.set build.JobID build)

/-- The statement of `getBuildsFrom`. -/
def getBuildsFrom.query (col : PointerColumn) (jobIDs : List Int) : SelectBuilder :=
  (buildsQuery.Where (.Eq [.j_id jobIDs])).Where (.Expr col)

def jobFactory.getBuildsFrom (j : jobFactory) (col : PointerColumn) (jobIDs : List Int)
    (log : Log) : Except Error BuildMap × Log :=
  match j.conn.Query (getBuildsFrom.query col jobIDs) log with
  | (.error err, log₁) => (.error err, log₁)
  | (.ok rows, log₁) => (getBuildsFrom.scan j.conn rows BuildMap.empty, log₁)

def jobFactory.buildDashboard (j : jobFactory) (jobs : Jobs) (log : Log) :
    Except Error Dashboard × Log :=
  let jobIDs := jobs.map Job.ID
  match j.getBuildsFrom .next_build_id jobIDs log with
  | (.error err, log₁) => (.error err, log₁)
  | (.ok nextBuilds, log₁) =>
    match j.getBuildsFrom .latest_completed_build_id jobIDs log₁ with
    | (.error err, log₂) => (.error err, log₂)
    | (.ok finishedBuilds, log₂) =>
      match j.getBuildsFrom .transition_build_id jobIDs log₂ with
      | (.error err, log₃) => (.error err, log₃)
      | (.ok transitionBuilds, log₃) =>
        (.ok (jobs.map (fun job =>
          { Job := job
            NextBuild := nextBuilds job.ID
            FinishedBuild := finishedBuilds job.ID
            TransitionBuild := transitionBuilds job.ID })), log₃)

/-- The statement of `teamJobs`. -/
def teamJobs.query (teamNames : List String) : SelectBuilder :=
  (jobsQuery.Where (.Eq [.t_name teamNames, .j_active true])).OrderBy .j_id_ASC

def jobFactory.teamJobs (j : jobFactory) (teamNames : List String) (log : Log) :
    Except Error Jobs × Log :=
  match j.conn.Query (teamJobs.query teamNames) log with
  | (.error err, log₁) => (.error err, log₁)
  | (.ok rows, log₁) => (scanJobs j.conn rows, log₁)

/-- The statement of `otherTeamPublicJobs`. -/
def otherTeamPublicJobs.query (teamNames : List String) : SelectBuilder :=
  ((jobsQuery.Where (.NotEq [.t_name teamNames])).Where
    (.Eq [.p_public true, .j_active true])).OrderBy .j_id_ASC

def jobFactory.otherTeamPublicJobs (j : jobFactory) (teamNames : List String) (log : Log) :
    Except Error Jobs × Log :=
  match j.conn.Query (otherTeamPublicJobs.query teamNames) log with
  | (.error err, log₁) => (.error err, log₁)
  | (.ok rows, log₁) => (scanJobs j.conn rows, log₁)

def jobFactory.VisibleJobs (j : jobFactory) (teamNames : List String) (log : Log) :
    Except Error Dashboard × Log :=
  match j.teamJobs teamNames log with
  | (.error err, log₁) => (.error err, log₁)
  | (.ok currentTeamJobs, log₁) =>
    match j.otherTeamPublicJobs teamNames log₁ with
    | (.error err, log₂) => (.error err, log₂)
    | (.ok otherTeamPublicJobs, log₂) =>
      j.buildDashboard (currentTeamJobs ++ otherTeamPublicJobs) log₂

/-- The statement of `AllActiveJobs`. -/
def AllActiveJobs.query : SelectBuilder :=
  (jobsQuery.Where (.Eq [.j_active true])).OrderBy .j_id_ASC

def jobFactory.AllActiveJobs (j : jobFactory) (log : Log) : Except Error Dashboard × Log :=
  match j.conn.Query AllActiveJobs.query log with
  | (.error err, log₁) => (.error err, log₁)
  | (.ok rows, log₁) =>
    match scanJobs j.conn rows with
    | .error err => (.error err, log₁)
    | .ok jobs => j.buildDashboard jobs log₁

/-! ## Fixtures -/

/-- A store in which no statement and no decode fails. -/
def Conn.healthy (jobs : List Job) (builds : List Build) : Conn :=
  ⟨jobs, builds, fun _ _ => none, fun _ => none, fun _ => none⟩

def opsPipeline : Pipeline := ⟨⟨"ops"⟩, false⟩

def devPipeline : Pipeline := ⟨⟨"dev"⟩, true⟩

def opsJob1 : Job := ⟨1, opsPipeline, true, some 11, some 10, none⟩

def opsJob5 : Job := ⟨5, opsPipeline, true, none, none, none⟩

def devJob3 : Job := ⟨3, devPipeline, true, some 99, some 30, some 30⟩

def build10 : Build := ⟨10, 1, "succeeded"⟩

def build11 : Build := ⟨11, 1, "pending"⟩

def build30 : Build := ⟨30, 3, "failed"⟩

/-- The scenario of the spec: team ops owns the active jobs 1 and 5, team dev
owns the active job 3 on a public pipeline.  Job 3 names the build 99, which
does not exist. -/
def scenario : jobFactory :=
  ⟨Conn.healthy [devJob3, opsJob5, opsJob1] [build10, build11, build30]⟩

/-! ## Specification vocabulary -/

/-- Every build attached to the entry belongs to the entry's job. -/
def DashboardJob.owned (e : DashboardJob) : Prop :=
  (∀ b, e.NextBuild = some b → b.JobID = e.Job.ID) ∧
  (∀ b, e.FinishedBuild = some b → b.JobID = e.Job.ID) ∧
  (∀ b, e.TransitionBuild = some b → b.JobID = e.Job.ID)

/-- Ascending job id. -/
def ascendingID (jobs : Jobs) : Prop :=
  jobs.Sorted (fun j₁ j₂ => j₁.id ≤ j₂.id)

/-- An active job owned by one of the named teams. -/
def currentTeamJob (teamNames : List String) (job : Job) : Prop :=
  job.active = true ∧ job.pipeline.team.name ∈ teamNames

/-- An active job of a public pipeline owned by a team that is not named. -/
def otherTeamPublicJob (teamNames : List String) (job : Job) : Prop :=
  job.active = true ∧ job.pipeline.team.name ∉ teamNames ∧ job.pipeline.public = true

instance (teamNames : List String) (job : Job) : Decidable (currentTeamJob teamNames job) := by
  unfold currentTeamJob
  infer_instance

instance (teamNames : List String) (job : Job) :
    Decidable (otherTeamPublicJob teamNames job) := by
  unfold otherTeamPublicJob
  infer_instance

/-- The field of an entry that `buildDashboard` fills from the lookup of
column `col`. -/
def DashboardJob.build (e : DashboardJob) : PointerColumn → Option Build
  | .next_build_id => e.NextBuild
  | .latest_completed_build_id => e.FinishedBuild
  | .transition_build_id => e.TransitionBuild

/-- The jobs carried by a dashboard, in order. -/
def Dashboard.jobs (d : Dashboard) : Jobs := d.map DashboardJob.Job

/-- No statement issued on the connection fails and no row fails to decode. -/
def Conn.faultFree (conn : Conn) : Prop :=
  (∀ log q, conn.queryErr log q = none) ∧
  (∀ job, conn.scanJobErr job = none) ∧
  (∀ build, conn.scanBuildErr build = none)

/-! ## Expected dashboards and further stores -/

/-- The dashboard of the scenario for a caller of team ops. -/
def scenarioDashboard : Dashboard :=
  [⟨opsJob1, some build11, some build10, none⟩,
   ⟨opsJob5, none, none, none⟩,
   ⟨devJob3, none, some build30, some build30⟩]

def secretPipeline : Pipeline := ⟨⟨"dev"⟩, false⟩

def devJob2 : Job := ⟨2, devPipeline, false, none, none, none⟩

def devJob4 : Job := ⟨4, secretPipeline, true, none, none, none⟩

def opsJob6 : Job := ⟨6, opsPipeline, false, none, none, none⟩

/-- The scenario with three more jobs: an inactive job of a public pipeline, an
active job of a private pipeline of team dev, and an inactive job of team ops. -/
def mixed : jobFactory :=
  ⟨Conn.healthy [opsJob6, devJob3, devJob4, opsJob5, devJob2, opsJob1]
    [build10, build11, build30]⟩

/-- The dashboard of `mixed` for a caller of team ops. -/
def mixedDashboard : Dashboard := scenarioDashboard

/-- The dashboard of `mixed` for `AllActiveJobs`. -/
def mixedActive : Dashboard :=
  [⟨opsJob1, some build11, some build10, none⟩,
   ⟨devJob3, none, some build30, some build30⟩,
   ⟨devJob4, none, none, none⟩,
   ⟨opsJob5, none, none, none⟩]

def strayJob : Job := ⟨1, opsPipeline, true, some 10, none, none⟩

def strayBuild : Build := ⟨10, 2, "succeeded"⟩

/-- A store whose only job names, as its next build, a build row that exists
but belongs to job 2. -/
def stray : jobFactory := ⟨Conn.healthy [strayJob] [strayBuild]⟩

/-- A connection on which the statement resolving column `col` fails and every
other statement succeeds. -/
def flaky (col : PointerColumn) : jobFactory :=
  ⟨{ jobs := [devJob3, opsJob5, opsJob1]
     builds := [build10, build11, build30]
     queryErr := fun _ q =>
       if q.wheres.contains (.Expr col) then some "connection reset" else none
     scanJobErr := fun _ => none
     scanBuildErr := fun _ => none }⟩

/-! ## Counting statements -/

/-- The statements of `buildsQuery` among those issued. -/
def buildLookups (issued : Log) : Nat :=
  issued.countP (fun q => q.base = .buildsQuery)

/-- The statements of `jobsQuery` among those issued. -/
def jobSelections (issued : Log) : Nat :=
  issued.countP (fun q => q.base = .jobsQuery)

/-! ## Unfolding lemmas -/

theorem getBuildsFrom_eq (j : jobFactory) (col : PointerColumn) (jobIDs : List Int)
    (log : Log) :
    j.getBuildsFrom col jobIDs log =
      ((match j.conn.queryErr log (getBuildsFrom.query col jobIDs) with
        | some err => .error err
        | none => getBuildsFrom.scan j.conn
            (j.conn.rows (getBuildsFrom.query col jobIDs)) BuildMap.empty),
        log ++ [getBuildsFrom.query col jobIDs]) := by
  unfold jobFactory.getBuildsFrom Conn.Query
  cases j.conn.queryErr log (getBuildsFrom.query col jobIDs) <;> rfl

theorem teamJobs_eq (j : jobFactory) (teamNames : List String) (log : Log) :
    j.teamJobs teamNames log =
      ((match j.conn.queryErr log (teamJobs.query teamNames) with
        | some err => .error err
        | none => scanJobs j.conn (j.conn.rows (teamJobs.query teamNames))),
        log ++ [teamJobs.query teamNames]) := by
  unfold jobFactory.teamJobs Conn.Query
  cases j.conn.queryErr log (teamJobs.query teamNames) <;> rfl

theorem otherTeamPublicJobs_eq (j : jobFactory) (teamNames : List String) (log : Log) :
    j.otherTeamPublicJobs teamNames log =
      ((match j.conn.queryErr log (otherTeamPublicJobs.query teamNames) with
        | some err => .error err
        | none => scanJobs j.conn (j.conn.rows (otherTeamPublicJobs.query teamNames))),
        log ++ [otherTeamPublicJobs.query teamNames]) := by
  unfold jobFactory.otherTeamPublicJobs Conn.Query
  cases j.conn.queryErr log (otherTeamPublicJobs.query teamNames) <;> rfl

/-- The entries `buildDashboard` assembles from three resolved maps. -/
theorem buildDashboard_of_lookups (j : jobFactory) (jobs : Jobs) (log log₁ log₂ log₃ : Log)
    (m₁ m₂ m₃ : BuildMap)
    (h₁ : j.getBuildsFrom .next_build_id (jobs.map Job.ID) log = (.ok m₁, log₁))
    (h₂ : j.getBuildsFrom .latest_completed_build_id (jobs.map Job.ID) log₁ = (.ok m₂, log₂))
    (h₃ : j.getBuildsFrom .transition_build_id (jobs.map Job.ID) log₂ = (.ok m₃, log₃)) :
    j.buildDashboard jobs log =
      (.ok (jobs.map (fun job => ⟨job, m₁ job.ID, m₂ job.ID, m₃ job.ID⟩)), log₃) := by
  unfold jobFactory.buildDashboard
  simp only [h₁, h₂, h₃]

/-- A dashboard is returned only after three successful lookups. -/
theorem buildDashboard_ok {j : jobFactory} {jobs : Jobs} {log : Log} {d : Dashboard}
    (h : (j.buildDashboard jobs log).1 = .ok d) :
    ∃ m₁ m₂ m₃ log₁ log₂ log₃,
      j.getBuildsFrom .next_build_id (jobs.map Job.ID) log = (.ok m₁, log₁) ∧
      j.getBuildsFrom .latest_completed_build_id (jobs.map Job.ID) log₁ = (.ok m₂, log₂) ∧
      j.getBuildsFrom .transition_build_id (jobs.map Job.ID) log₂ = (.ok m₃, log₃) ∧
      d = jobs.map (fun job => ⟨job, m₁ job.ID, m₂ job.ID, m₃ job.ID⟩) := by
  unfold jobFactory.buildDashboard at h
  rcases h₁ : j.getBuildsFrom .next_build_id (jobs.map Job.ID) log with ⟨r₁, log₁⟩
  cases r₁ with
  | error e => simp [h₁] at h
  | ok m₁ =>
    rcases h₂ : j.getBuildsFrom .latest_completed_build_id (jobs.map Job.ID) log₁
      with ⟨r₂, log₂⟩
    cases r₂ with
    | error e => simp [h₁, h₂] at h
    | ok m₂ =>
      rcases h₃ : j.getBuildsFrom .transition_build_id (jobs.map Job.ID) log₂
        with ⟨r₃, log₃⟩
      cases r₃ with
      | error e => simp [h₁, h₂, h₃] at h
      | ok m₃ =>
        simp only [h₁, h₂, h₃] at h
        refine ⟨m₁, m₂, m₃, log₁, log₂, log₃, rfl, h₂, h₃, ?_⟩
        injection h with h
        exact h.symm

/-- A dashboard of `VisibleJobs` is the dashboard of the two fetched job lists. -/
theorem VisibleJobs_ok {j : jobFactory} {teamNames : List String} {log : Log} {d : Dashboard}
    (h : (j.VisibleJobs teamNames log).1 = .ok d) :
    ∃ cur oth log₂,
      j.conn.queryErr log (teamJobs.query teamNames) = none ∧
      scanJobs j.conn (j.conn.rows (teamJobs.query teamNames)) = .ok cur ∧
      scanJobs j.conn (j.conn.rows (otherTeamPublicJobs.query teamNames)) = .ok oth ∧
      (j.buildDashboard (cur ++ oth) log₂).1 = .ok d := by
  unfold jobFactory.VisibleJobs at h
  rw [teamJobs_eq] at h
  cases hq₁ : j.conn.queryErr log (teamJobs.query teamNames) with
  | some e => simp [hq₁] at h
  | none =>
    simp only [hq₁] at h
    cases hs₁ : scanJobs j.conn (j.conn.rows (teamJobs.query teamNames)) with
    | error e => simp [hs₁] at h
    | ok cur =>
      simp only [hs₁] at h
      rw [otherTeamPublicJobs_eq] at h
      cases hq₂ : j.conn.queryErr (log ++ [teamJobs.query teamNames])
          (otherTeamPublicJobs.query teamNames) with
      | some e => simp [hq₂] at h
      | none =>
        simp only [hq₂] at h
        cases hs₂ : scanJobs j.conn (j.conn.rows (otherTeamPublicJobs.query teamNames)) with
        | error e => simp [hs₂] at h
        | ok oth =>
          simp only [hs₂] at h
          exact ⟨cur, oth, _, rfl, rfl, rfl, h⟩

/-- A dashboard of `AllActiveJobs` is the dashboard of the fetched job list. -/
theorem AllActiveJobs_ok {j : jobFactory} {log : Log} {d : Dashboard}
    (h : (j.AllActiveJobs log).1 = .ok d) :
    ∃ jobs log₁,
      scanJobs j.conn (j.conn.rows AllActiveJobs.query) = .ok jobs ∧
      (j.buildDashboard jobs log₁).1 = .ok d := by
  unfold jobFactory.AllActiveJobs Conn.Query at h
  cases hq : j.conn.queryErr log AllActiveJobs.query with
  | some e => simp [hq] at h
  | none =>
    simp only [hq] at h
    cases hs : scanJobs j.conn (j.conn.rows AllActiveJobs.query) with
    | error e => simp [hs] at h
    | ok jobs =>
      simp only [hs] at h
      exact ⟨jobs, _, rfl, h⟩

/-! ## The scan loop of `getBuildsFrom` -/

/-- Every entry the loop leaves in the map was there before or comes from a
row, and sits under the job id of its build. -/
theorem scan_lookup (conn : Conn) :
    ∀ (rows : List Row) (m m' : BuildMap), getBuildsFrom.scan conn rows m = .ok m' →
      ∀ k b, m' k = some b →
        m k = some b ∨ ∃ r ∈ rows, r.b = some b ∧ b.JobID = k := by
  intro rows
  induction rows with
  | nil =>
    intro m m' h k b hk
    simp only [getBuildsFrom.scan, Except.ok.injEq] at h
    subst h
    exact Or.inl hk
  | cons r rows ih =>
    intro m m' h k b hk
    unfold getBuildsFrom.scan at h
    cases hs : scanBuild conn r with
    | error e => simp [hs] at h
    | ok build =>
      simp only [hs] at h
      have hb : r.b = some build := by
        unfold scanBuild at hs
        cases hrb : r.b with
        | none => simp [hrb] at hs
        | some b₀ =>
          simp only [hrb] at hs
          cases he : conn.scanBuildErr b₀ with
          | some e => simp [he] at hs
          | none =>
            simp only [he, Except.ok.injEq] at hs
            rw [hs]
      rcases ih _ _ h k b hk with h₀ | ⟨r', hr', hb', hk'⟩
      · unfold BuildMap.set at h₀
        by_cases hik : k = build.JobID
        · simp only [hik, if_true, Option.some.injEq] at h₀
          subst h₀
          exact Or.inr ⟨r, List.mem_cons_self _ _, hb, hik.symm⟩
        · simp only [hik, if_false] at h₀
          exact Or.inl h₀
      · exact Or.inr ⟨r', List.mem_cons_of_mem _ hr', hb', hk'⟩

/-- The map returned by `getBuildsFrom` holds each build under its own job id,
and every build in it is a row of the statement. -/
theorem getBuildsFrom_lookup {j : jobFactory} {col : PointerColumn} {jobIDs : List Int}
    {log : Log} {m : BuildMap} (h : (j.getBuildsFrom col jobIDs log).1 = .ok m)
    (k : Int) (b : Build) (hk : m k = some b) :
    b.JobID = k ∧ ∃ r ∈ j.conn.rows (getBuildsFrom.query col jobIDs), r.b = some b := by
  rw [getBuildsFrom_eq] at h
  cases hq : j.conn.queryErr log (getBuildsFrom.query col jobIDs) with
  | some e => simp [hq] at h
  | none =>
    simp only [hq] at h
    rcases scan_lookup j.conn _ _ _ h k b hk with h₀ | ⟨r, hr, hb, hk'⟩
    · simp [BuildMap.empty] at h₀
    · exact ⟨hk', r, hr, hb⟩

theorem buildDashboard_owned {j : jobFactory} {jobs : Jobs} {log : Log} {d : Dashboard}
    (h : (j.buildDashboard jobs log).1 = .ok d) : ∀ e ∈ d, e.owned := by
  obtain ⟨m₁, m₂, m₃, log₁, log₂, log₃, h₁, h₂, h₃, rfl⟩ := buildDashboard_ok h
  intro e he
  simp only [List.mem_map] at he
  obtain ⟨job, -, rfl⟩ := he
  refine ⟨fun b hb => ?_, fun b hb => ?_, fun b hb => ?_⟩
  · exact (getBuildsFrom_lookup (by rw [h₁]) _ b hb).1
  · exact (getBuildsFrom_lookup (by rw [h₂]) _ b hb).1
  · exact (getBuildsFrom_lookup (by rw [h₃]) _ b hb).1

/-! ## Job selection -/

theorem scanJobs_ok (conn : Conn) :
    ∀ (rows : List Row) (jobs : Jobs), scanJobs conn rows = .ok jobs →
      jobs = rows.map Row.j := by
  intro rows
  induction rows with
  | nil =>
    intro jobs h
    simp only [scanJobs, Except.ok.injEq] at h
    simp [← h]
  | cons r rows ih =>
    intro jobs h
    unfold scanJobs at h
    cases he : conn.scanJobErr r.j with
    | some e => simp [he] at h
    | none =>
      simp only [he] at h
      cases hs : scanJobs conn rows with
      | error e => simp [hs] at h
      | ok js =>
        simp only [hs, Except.ok.injEq] at h
        rw [← h, ih js hs, List.map_cons]

theorem scanJobs_of_noErr (conn : Conn) (hc : ∀ job, conn.scanJobErr job = none) :
    ∀ rows : List Row, scanJobs conn rows = .ok (rows.map Row.j) := by
  intro rows
  induction rows with
  | nil => rfl
  | cons r rows ih =>
    unfold scanJobs
    simp only [hc r.j, ih, List.map_cons]

/-- The job columns of the rows of a `jobsQuery` statement ordered by
`j.id ASC`: the job rows that satisfy the `Where` parts, each once. -/
theorem jobRows_perm (conn : Conn) (ws : List Sqlizer) :
    ((conn.rows ⟨.jobsQuery, ws, [.j_id_ASC]⟩).map Row.j).Perm
      (conn.jobs.filter (fun job => ws.all (fun w => w.holds ⟨job, none⟩))) := by
  have h : (conn.rows ⟨.jobsQuery, ws, [.j_id_ASC]⟩).Perm
      ((conn.jobs.map (fun j => (⟨j, none⟩ : Row))).filter
        (fun r => ws.all (fun w => w.holds r))) := by
    simp only [Conn.rows, Conn.baseRows, List.foldr, orderRows]
    exact List.perm_insertionSort _ _
  have h' := h.map Row.j
  rw [List.filter_map, List.map_map] at h'
  simpa [Function.comp_def] using h'

theorem jobRows_sorted (conn : Conn) (ws : List Sqlizer) :
    ascendingID ((conn.rows ⟨.jobsQuery, ws, [.j_id_ASC]⟩).map Row.j) := by
  haveI : IsTotal Row (fun r₁ r₂ => r₁.j.id ≤ r₂.j.id) := ⟨fun a b => Int.le_total _ _⟩
  haveI : IsTrans Row (fun r₁ r₂ => r₁.j.id ≤ r₂.j.id) := ⟨fun _ _ _ h₁ h₂ => Int.le_trans h₁ h₂⟩
  have h : (conn.rows ⟨.jobsQuery, ws, [.j_id_ASC]⟩).Sorted (fun r₁ r₂ => r₁.j.id ≤ r₂.j.id) := by
    simp only [Conn.rows, Conn.baseRows, List.foldr, orderRows]
    exact List.sorted_insertionSort _ _
  unfold ascendingID List.Sorted
  rw [List.pairwise_map]
  exact h

theorem teamJobs_rows_perm (conn : Conn) (teamNames : List String) :
    ((conn.rows (teamJobs.query teamNames)).map Row.j).Perm
      (conn.jobs.filter (fun job => currentTeamJob teamNames job)) := by
  have h := jobRows_perm conn [.Eq [.t_name teamNames, .j_active true]]
  have e : (fun job : Job => ([Sqlizer.Eq [.t_name teamNames, .j_active true]]).all
      (fun w => w.holds ⟨job, none⟩)) = (fun job => decide (currentTeamJob teamNames job)) := by
    funext job
    rcases job with ⟨id, ⟨⟨name⟩, pub⟩, act, n, l, t⟩
    cases act <;> simp [Sqlizer.holds, Cond.holds, currentTeamJob]
  rw [e] at h
  exact h

theorem otherTeamPublicJobs_rows_perm (conn : Conn) (teamNames : List String) :
    ((conn.rows (otherTeamPublicJobs.query teamNames)).map Row.j).Perm
      (conn.jobs.filter (fun job => otherTeamPublicJob teamNames job)) := by
  have h := jobRows_perm conn
    [.NotEq [.t_name teamNames], .Eq [.p_public true, .j_active true]]
  have e : (fun job : Job =>
      ([Sqlizer.NotEq [.t_name teamNames], .Eq [.p_public true, .j_active true]]).all
      (fun w => w.holds ⟨job, none⟩)) =
      (fun job => decide (otherTeamPublicJob teamNames job)) := by
    funext job
    rcases job with ⟨id, ⟨⟨name⟩, pub⟩, act, n, l, t⟩
    cases act <;> cases pub <;> simp [Sqlizer.holds, Cond.holds, otherTeamPublicJob]
  rw [e] at h
  exact h

theorem AllActiveJobs_rows_perm (conn : Conn) :
    ((conn.rows AllActiveJobs.query).map Row.j).Perm
      (conn.jobs.filter (fun job => job.active)) := by
  have h := jobRows_perm conn [.Eq [.j_active true]]
  have e : (fun job : Job => ([Sqlizer.Eq [.j_active true]]).all
      (fun w => w.holds ⟨job, none⟩)) = (fun job => job.active) := by
    funext job
    simp [Sqlizer.holds, Cond.holds]
  rw [e] at h
  exact h

/-- The jobs of a dashboard assembled by `buildDashboard` are its input. -/
theorem buildDashboard_jobs {j : jobFactory} {jobs : Jobs} {log : Log} {d : Dashboard}
    (h : (j.buildDashboard jobs log).1 = .ok d) : d.jobs = jobs := by
  obtain ⟨m₁, m₂, m₃, log₁, log₂, log₃, -, -, -, rfl⟩ := buildDashboard_ok h
  simp [Dashboard.jobs, Function.comp_def]

/-- The job sequence of `VisibleJobs`: the two ordered selections, one after
the other. -/
theorem VisibleJobs_jobs {j : jobFactory} {teamNames : List String} {log : Log}
    {d : Dashboard} (h : (j.VisibleJobs teamNames log).1 = .ok d) :
    ∃ cur oth, d.jobs = cur ++ oth ∧
      cur.Perm (j.conn.jobs.filter (fun job => currentTeamJob teamNames job)) ∧
      ascendingID cur ∧
      oth.Perm (j.conn.jobs.filter (fun job => otherTeamPublicJob teamNames job)) ∧
      ascendingID oth := by
  obtain ⟨cur, oth, log₂, -, hc, ho, hd⟩ := VisibleJobs_ok h
  refine ⟨cur, oth, buildDashboard_jobs hd, ?_, ?_, ?_, ?_⟩
  · rw [scanJobs_ok _ _ _ hc]
    exact teamJobs_rows_perm _ _
  · rw [scanJobs_ok _ _ _ hc]
    exact jobRows_sorted _ _
  · rw [scanJobs_ok _ _ _ ho]
    exact otherTeamPublicJobs_rows_perm _ _
  · rw [scanJobs_ok _ _ _ ho]
    exact jobRows_sorted _ _

theorem AllActiveJobs_jobs {j : jobFactory} {log : Log} {d : Dashboard}
    (h : (j.AllActiveJobs log).1 = .ok d) :
    d.jobs.Perm (j.conn.jobs.filter (fun job => job.active)) ∧ ascendingID d.jobs := by
  obtain ⟨jobs, log₁, hs, hd⟩ := AllActiveJobs_ok h
  rw [buildDashboard_jobs hd, scanJobs_ok _ _ _ hs]
  exact ⟨AllActiveJobs_rows_perm _, jobRows_sorted _ _⟩

/-! ## The rows of `getBuildsFrom` -/

theorem buildRows_mem (conn : Conn) (col : PointerColumn) (jobIDs : List Int) (r : Row) :
    r ∈ conn.rows (getBuildsFrom.query col jobIDs) ↔
      ∃ b ∈ conn.builds, ∃ job ∈ conn.jobs,
        r = ⟨job, some b⟩ ∧ job.ID ∈ jobIDs ∧ job.column col = some b.id := by
  simp only [Conn.rows, getBuildsFrom.query, SelectBuilder.Where, buildsQuery, Conn.baseRows,
    List.foldr, List.nil_append, List.cons_append, List.mem_filter, List.mem_flatMap,
    List.mem_map, List.all_cons, List.all_nil, Bool.and_true, Bool.and_eq_true, Job.ID]
  constructor
  · rintro ⟨⟨b, hb, job, hjob, rfl⟩, h₁, h₂⟩
    refine ⟨b, hb, job, hjob, rfl, ?_, ?_⟩
    · simpa [Sqlizer.holds, Cond.holds] using h₁
    · simpa [Sqlizer.holds] using h₂
  · rintro ⟨b, hb, job, hjob, rfl, h₁, h₂⟩
    refine ⟨⟨b, hb, job, hjob, rfl⟩, ?_, ?_⟩
    · simpa [Sqlizer.holds, Cond.holds] using h₁
    · simpa [Sqlizer.holds] using h₂

/-- The loop runs to its end when every row decodes. -/
theorem scan_total (conn : Conn) :
    ∀ (rows : List Row) (m : BuildMap),
      (∀ r ∈ rows, ∃ b, r.b = some b ∧ conn.scanBuildErr b = none) →
      ∃ m', getBuildsFrom.scan conn rows m = .ok m' := by
  intro rows
  induction rows with
  | nil => intro m _; exact ⟨m, rfl⟩
  | cons r rows ih =>
    intro m h
    obtain ⟨b, hb, he⟩ := h r (List.mem_cons_self _ _)
    unfold getBuildsFrom.scan scanBuild
    simp only [hb, he]
    exact ih _ (fun r' hr' => h r' (List.mem_cons_of_mem _ hr'))

/-- A build row that reaches the loop is present under its job id afterwards,
possibly replaced by a later row with the same job id. -/
theorem scan_mem (conn : Conn) :
    ∀ (rows : List Row) (m m' : BuildMap), getBuildsFrom.scan conn rows m = .ok m' →
      (∀ k, (m k).isSome → (m' k).isSome) ∧
      ∀ r ∈ rows, ∀ b, r.b = some b → (m' b.JobID).isSome := by
  intro rows
  induction rows with
  | nil =>
    intro m m' h
    simp only [getBuildsFrom.scan, Except.ok.injEq] at h
    subst h
    exact ⟨fun _ hk => hk, fun r hr => absurd hr (List.not_mem_nil _)⟩
  | cons r rows ih =>
    intro m m' h
    unfold getBuildsFrom.scan at h
    cases hs : scanBuild conn r with
    | error e => simp [hs] at h
    | ok build =>
      simp only [hs] at h
      have hb : r.b = some build := by
        unfold scanBuild at hs
        cases hrb : r.b with
        | none => simp [hrb] at hs
        | some b₀ =>
          simp only [hrb] at hs
          cases he : conn.scanBuildErr b₀ with
          | some e => simp [he] at hs
          | none =>
            simp only [he, Except.ok.injEq] at hs
            rw [hs]
      obtain ⟨ih₁, ih₂⟩ := ih _ _ h
      refine ⟨fun k hk => ih₁ k ?_, fun r' hr' b hb' => ?_⟩
      · unfold BuildMap.set
        by_cases hik : k = build.JobID
        · simp [hik]
        · simpa [hik] using hk
      · rcases List.mem_cons.mp hr' with rfl | hr'
        · rw [hb] at hb'
          injection hb' with hb'
          subst hb'
          exact ih₁ _ (by simp [BuildMap.set])
        · exact ih₂ r' hr' b hb'

theorem getBuildsFrom_total (j : jobFactory) (col : PointerColumn) (jobIDs : List Int)
    (log : Log) (hq : j.conn.queryErr log (getBuildsFrom.query col jobIDs) = none)
    (hscan : ∀ b ∈ j.conn.builds, j.conn.scanBuildErr b = none) :
    ∃ m, j.getBuildsFrom col jobIDs log = (.ok m, log ++ [getBuildsFrom.query col jobIDs]) := by
  rw [getBuildsFrom_eq]
  simp only [hq]
  obtain ⟨m, hm⟩ := scan_total j.conn (j.conn.rows (getBuildsFrom.query col jobIDs))
    BuildMap.empty (by
      intro r hr
      obtain ⟨b, hb, job, -, rfl, -, -⟩ := (buildRows_mem _ _ _ _).mp hr
      exact ⟨b, rfl, hscan b hb⟩)
  exact ⟨m, by rw [hm]⟩

/-! ## Results and logs of the entry points -/

/-- The result of `buildDashboard` in terms of the results of its lookups. -/
theorem buildDashboard_fst (j : jobFactory) (jobs : Jobs) (log : Log) :
    (j.buildDashboard jobs log).1 =
      match (j.getBuildsFrom .next_build_id (jobs.map Job.ID) log).1 with
      | .error err => .error err
      | .ok m₁ =>
        match (j.getBuildsFrom .latest_completed_build_id (jobs.map Job.ID)
          (log ++ [getBuildsFrom.query .next_build_id (jobs.map Job.ID)])).1 with
        | .error err => .error err
        | .ok m₂ =>
          match (j.getBuildsFrom .transition_build_id (jobs.map Job.ID)
            (log ++ [getBuildsFrom.query .next_build_id (jobs.map Job.ID)] ++
              [getBuildsFrom.query .latest_completed_build_id (jobs.map Job.ID)])).1 with
          | .error err => .error err
          | .ok m₃ => .ok (jobs.map (fun job => ⟨job, m₁ job.ID, m₂ job.ID, m₃ job.ID⟩)) := by
  unfold jobFactory.buildDashboard
  simp only [getBuildsFrom_eq]
  cases j.conn.queryErr log (getBuildsFrom.query .next_build_id (jobs.map Job.ID)) with
  | some e => rfl
  | none =>
    simp only
    cases getBuildsFrom.scan j.conn
      (j.conn.rows (getBuildsFrom.query .next_build_id (jobs.map Job.ID))) BuildMap.empty with
    | error e => rfl
    | ok m₁ =>
      simp only
      cases j.conn.queryErr (log ++ [getBuildsFrom.query .next_build_id (jobs.map Job.ID)])
        (getBuildsFrom.query .latest_completed_build_id (jobs.map Job.ID)) with
      | some e => rfl
      | none =>
        simp only
        cases getBuildsFrom.scan j.conn
          (j.conn.rows (getBuildsFrom.query .latest_completed_build_id (jobs.map Job.ID)))
          BuildMap.empty with
        | error e => rfl
        | ok m₂ =>
          simp only
          cases j.conn.queryErr
            (log ++ [getBuildsFrom.query .next_build_id (jobs.map Job.ID)] ++
              [getBuildsFrom.query .latest_completed_build_id (jobs.map Job.ID)])
            (getBuildsFrom.query .transition_build_id (jobs.map Job.ID)) with
          | some e => rfl
          | none =>
            simp only
            cases getBuildsFrom.scan j.conn
              (j.conn.rows (getBuildsFrom.query .transition_build_id (jobs.map Job.ID)))
              BuildMap.empty with
            | error e => rfl
            | ok m₃ => rfl

/-- The result of `VisibleJobs` in terms of the results of its two selections
and of `buildDashboard`. -/
theorem VisibleJobs_fst (j : jobFactory) (teamNames : List String) (log : Log) :
    (j.VisibleJobs teamNames log).1 =
      match (j.teamJobs teamNames log).1 with
      | .error err => .error err
      | .ok cur =>
        match (j.otherTeamPublicJobs teamNames (log ++ [teamJobs.query teamNames])).1 with
        | .error err => .error err
        | .ok oth =>
          (j.buildDashboard (cur ++ oth)
            (log ++ [teamJobs.query teamNames] ++ [otherTeamPublicJobs.query teamNames])).1 := by
  unfold jobFactory.VisibleJobs
  simp only [teamJobs_eq, otherTeamPublicJobs_eq]
  cases j.conn.queryErr log (teamJobs.query teamNames) with
  | some e => rfl
  | none =>
    simp only
    cases scanJobs j.conn (j.conn.rows (teamJobs.query teamNames)) with
    | error e => rfl
    | ok cur =>
      simp only
      cases j.conn.queryErr (log ++ [teamJobs.query teamNames])
        (otherTeamPublicJobs.query teamNames) with
      | some e => rfl
      | none =>
        simp only
        cases scanJobs j.conn (j.conn.rows (otherTeamPublicJobs.query teamNames)) with
        | error e => rfl
        | ok oth => rfl

/-- The log after `buildDashboard`: the statement of the first lookup is always
issued, and at most the three lookup statements are. -/
theorem buildDashboard_snd (j : jobFactory) (jobs : Jobs) (log : Log) :
    ∃ rest, (j.buildDashboard jobs log).2 =
        log ++ getBuildsFrom.query .next_build_id (jobs.map Job.ID) :: rest ∧
      rest.length ≤ 2 := by
  unfold jobFactory.buildDashboard
  simp only [getBuildsFrom_eq]
  cases j.conn.queryErr log (getBuildsFrom.query .next_build_id (jobs.map Job.ID)) with
  | some e => exact ⟨[], rfl, by simp⟩
  | none =>
    simp only
    cases getBuildsFrom.scan j.conn
      (j.conn.rows (getBuildsFrom.query .next_build_id (jobs.map Job.ID))) BuildMap.empty with
    | error e => exact ⟨[], rfl, by simp⟩
    | ok m₁ =>
      simp only
      cases j.conn.queryErr (log ++ [getBuildsFrom.query .next_build_id (jobs.map Job.ID)])
        (getBuildsFrom.query .latest_completed_build_id (jobs.map Job.ID)) with
      | some e => exact ⟨[getBuildsFrom.query .latest_completed_build_id (jobs.map Job.ID)], by simp, by simp⟩
      | none =>
        simp only
        cases getBuildsFrom.scan j.conn
          (j.conn.rows (getBuildsFrom.query .latest_completed_build_id (jobs.map Job.ID)))
          BuildMap.empty with
        | error e => exact ⟨[getBuildsFrom.query .latest_completed_build_id (jobs.map Job.ID)], by simp, by simp⟩
        | ok m₂ =>
          simp only
          cases j.conn.queryErr
            (log ++ [getBuildsFrom.query .next_build_id (jobs.map Job.ID)] ++
              [getBuildsFrom.query .latest_completed_build_id (jobs.map Job.ID)])
            (getBuildsFrom.query .transition_build_id (jobs.map Job.ID)) with
          | some e => exact ⟨[getBuildsFrom.query .latest_completed_build_id (jobs.map Job.ID),
              getBuildsFrom.query .transition_build_id (jobs.map Job.ID)], by simp, by simp⟩
          | none =>
            simp only
            cases getBuildsFrom.scan j.conn
              (j.conn.rows (getBuildsFrom.query .transition_build_id (jobs.map Job.ID)))
              BuildMap.empty with
            | error e => exact ⟨[getBuildsFrom.query .latest_completed_build_id (jobs.map Job.ID),
              getBuildsFrom.query .transition_build_id (jobs.map Job.ID)], by simp, by simp⟩
            | ok m₃ => exact ⟨[getBuildsFrom.query .latest_completed_build_id (jobs.map Job.ID),
              getBuildsFrom.query .transition_build_id (jobs.map Job.ID)], by simp, by simp⟩

theorem buildDashboard_snd_length (j : jobFactory) (jobs : Jobs) (log : Log) :
    (j.buildDashboard jobs log).2.length ≤ log.length + 3 := by
  obtain ⟨rest, h, hr⟩ := buildDashboard_snd j jobs log
  rw [h]
  simp only [List.length_append, List.length_cons]
  omega

theorem VisibleJobs_snd_length (j : jobFactory) (teamNames : List String) (log : Log) :
    (j.VisibleJobs teamNames log).2.length ≤ log.length + 5 := by
  unfold jobFactory.VisibleJobs
  simp only [teamJobs_eq, otherTeamPublicJobs_eq]
  cases j.conn.queryErr log (teamJobs.query teamNames) with
  | some e => simp
  | none =>
    simp only
    cases scanJobs j.conn (j.conn.rows (teamJobs.query teamNames)) with
    | error e => simp
    | ok cur =>
      simp only
      cases j.conn.queryErr (log ++ [teamJobs.query teamNames])
        (otherTeamPublicJobs.query teamNames) with
      | some e => simp
      | none =>
        simp only
        cases scanJobs j.conn (j.conn.rows (otherTeamPublicJobs.query teamNames)) with
        | error e => simp
        | ok oth =>
          simp only
          have h := buildDashboard_snd_length j (cur ++ oth)
            (log ++ [teamJobs.query teamNames] ++ [otherTeamPublicJobs.query teamNames])
          simp only [List.length_append, List.length_singleton] at h
          omega

theorem AllActiveJobs_snd_length (j : jobFactory) (log : Log) :
    (j.AllActiveJobs log).2.length ≤ log.length + 4 := by
  unfold jobFactory.AllActiveJobs Conn.Query
  cases j.conn.queryErr log AllActiveJobs.query with
  | some e => simp
  | none =>
    simp only
    cases scanJobs j.conn (j.conn.rows AllActiveJobs.query) with
    | error e => simp
    | ok jobs =>
      simp only
      have h := buildDashboard_snd_length j jobs (log ++ [AllActiveJobs.query])
      simp only [List.length_append, List.length_singleton] at h
      omega

/-! ## Fault-free connections -/

theorem buildDashboard_faultFree (j : jobFactory) (hc : j.conn.faultFree) (jobs : Jobs)
    (log : Log) : ∃ d, (j.buildDashboard jobs log).1 = .ok d := by
  obtain ⟨hq, -, hb⟩ := hc
  rw [buildDashboard_fst]
  obtain ⟨m₁, h₁⟩ := getBuildsFrom_total j .next_build_id (jobs.map Job.ID) log
    (hq _ _) (fun b _ => hb b)
  obtain ⟨m₂, h₂⟩ := getBuildsFrom_total j .latest_completed_build_id (jobs.map Job.ID)
    (log ++ [getBuildsFrom.query .next_build_id (jobs.map Job.ID)]) (hq _ _) (fun b _ => hb b)
  obtain ⟨m₃, h₃⟩ := getBuildsFrom_total j .transition_build_id (jobs.map Job.ID)
    (log ++ [getBuildsFrom.query .next_build_id (jobs.map Job.ID)] ++
      [getBuildsFrom.query .latest_completed_build_id (jobs.map Job.ID)])
    (hq _ _) (fun b _ => hb b)
  rw [h₁, h₂, h₃]
  exact ⟨_, rfl⟩

theorem VisibleJobs_faultFree (j : jobFactory) (hc : j.conn.faultFree)
    (teamNames : List String) (log : Log) :
    ∃ d, (j.VisibleJobs teamNames log).1 = .ok d := by
  rw [VisibleJobs_fst, teamJobs_eq, otherTeamPublicJobs_eq]
  simp only [hc.1, scanJobs_of_noErr j.conn hc.2.1]
  exact buildDashboard_faultFree j hc _ _

theorem AllActiveJobs_faultFree (j : jobFactory) (hc : j.conn.faultFree) (log : Log) :
    ∃ d, (j.AllActiveJobs log).1 = .ok d := by
  unfold jobFactory.AllActiveJobs Conn.Query
  simp only [hc.1, scanJobs_of_noErr j.conn hc.2.1]
  exact buildDashboard_faultFree j hc _ _

theorem healthy_faultFree (jobs : List Job) (builds : List Build) :
    (Conn.healthy jobs builds).faultFree :=
  ⟨fun _ _ => rfl, fun _ => rfl, fun _ => rfl⟩

theorem nodup_filter_append {α β : Type} (f : α → β) (p q : α → Bool) (l : List α)
    (hl : (l.map f).Nodup) (hpq : ∀ a, p a = true → q a = true → False) :
    ((l.filter p ++ l.filter q).map f).Nodup := by
  rw [List.map_append, List.nodup_append]
  refine ⟨((List.filter_sublist l).map f).nodup hl, ((List.filter_sublist l).map f).nodup hl, ?_⟩
  intro x hx hx'
  simp only [List.mem_map, List.mem_filter] at hx hx'
  obtain ⟨a, ⟨ha, hpa⟩, rfl⟩ := hx
  obtain ⟨b, ⟨hb, hqb⟩, hab⟩ := hx'
  have := List.inj_on_of_nodup_map hl hb ha hab
  subst this
  exact hpq _ hpa hqb

/-! ## Build ownership -/

/-- C1: in every dashboard produced by `buildDashboard`, and hence by
`VisibleJobs` and by `AllActiveJobs`, each of `NextBuild`, `FinishedBuild` and
`TransitionBuild` that is present is a build whose job id is the id of the
entry's job. -/
theorem dashboard_builds_owned (j : jobFactory) (jobs : Jobs) (teamNames : List String)
    (log : Log) :
    (∀ d, (j.buildDashboard jobs log).1 = .ok d → ∀ e ∈ d, e.owned) ∧
    (∀ d, (j.VisibleJobs teamNames log).1 = .ok d → ∀ e ∈ d, e.owned) ∧
    (∀ d, (j.AllActiveJobs log).1 = .ok d → ∀ e ∈ d, e.owned) := by
  refine ⟨fun d h => buildDashboard_owned h, fun d h => ?_, fun d h => ?_⟩
  · obtain ⟨cur, oth, log₂, -, -, -, hd⟩ := VisibleJobs_ok h
    exact buildDashboard_owned hd
  · obtain ⟨jobs', log₁, -, hd⟩ := AllActiveJobs_ok h
    exact buildDashboard_owned hd


/-- Witness of C1 on the scenario of the spec. -/
theorem dashboard_builds_owned_witness :
    (scenario.VisibleJobs ["ops"] []).1 = .ok scenarioDashboard ∧
    ∀ e ∈ scenarioDashboard, e.owned :=
  ⟨rfl, (dashboard_builds_owned scenario [] ["ops"] []).2.1 scenarioDashboard rfl⟩

/-! ## Input order -/

/-- C2: when the three build lookups succeed, `buildDashboard` returns a
dashboard with exactly one entry per input job, the i-th entry carrying the
i-th input job, for every index i. -/
theorem buildDashboard_preserves_input_order (j : jobFactory) (jobs : Jobs) (log : Log)
    (h₁ : (j.getBuildsFrom .next_build_id (jobs.map Job.ID) log).1.toBool = true)
    (h₂ : (j.getBuildsFrom .latest_completed_build_id (jobs.map Job.ID)
      (log ++ [getBuildsFrom.query .next_build_id (jobs.map Job.ID)])).1.toBool = true)
    (h₃ : (j.getBuildsFrom .transition_build_id (jobs.map Job.ID)
      (log ++ [getBuildsFrom.query .next_build_id (jobs.map Job.ID)] ++
        [getBuildsFrom.query .latest_completed_build_id (jobs.map Job.ID)])).1.toBool = true) :
    ∃ d, (j.buildDashboard jobs log).1 = .ok d ∧ d.length = jobs.length ∧
      ∀ i : Nat, (d[i]?).map DashboardJob.Job = jobs[i]? := by
  rw [buildDashboard_fst]
  cases e₁ : (j.getBuildsFrom .next_build_id (jobs.map Job.ID) log).1 with
  | error e =>
    rw [e₁] at h₁
    exact absurd h₁ (by simp [Except.toBool])
  | ok m₁ =>
    cases e₂ : (j.getBuildsFrom .latest_completed_build_id (jobs.map Job.ID)
      (log ++ [getBuildsFrom.query .next_build_id (jobs.map Job.ID)])).1 with
    | error e =>
      rw [e₂] at h₂
      exact absurd h₂ (by simp [Except.toBool])
    | ok m₂ =>
      cases e₃ : (j.getBuildsFrom .transition_build_id (jobs.map Job.ID)
        (log ++ [getBuildsFrom.query .next_build_id (jobs.map Job.ID)] ++
          [getBuildsFrom.query .latest_completed_build_id (jobs.map Job.ID)])).1 with
      | error e =>
        rw [e₃] at h₃
        exact absurd h₃ (by simp [Except.toBool])
      | ok m₃ =>
        refine ⟨_, rfl, by simp, fun i => ?_⟩
        rw [List.getElem?_map]
        cases jobs[i]? <;> rfl

/-- Witness of C2: an unsorted job list comes back in the order given. -/
theorem buildDashboard_preserves_input_order_witness :
    ∃ d, (scenario.buildDashboard [opsJob5, devJob3, opsJob1] []).1 = .ok d ∧
      d.length = [opsJob5, devJob3, opsJob1].length ∧
      ∀ i : Nat, (d[i]?).map DashboardJob.Job = [opsJob5, devJob3, opsJob1][i]? :=
  buildDashboard_preserves_input_order scenario [opsJob5, devJob3, opsJob1] []
    (by decide) (by decide) (by decide)

/-! ## Visibility -/

/-- C3: the job sequence of `VisibleJobs(teamNames)` is the active jobs owned by
the named teams in ascending job id, followed by the active jobs of public
pipelines owned by other teams in ascending job id; a dashboard is returned
whenever the store does not fail. -/
theorem VisibleJobs_current_team_first (j : jobFactory) (teamNames : List String)
    (log : Log) :
    (j.conn.faultFree → ∃ d, (j.VisibleJobs teamNames log).1 = .ok d) ∧
    ∀ d, (j.VisibleJobs teamNames log).1 = .ok d →
      ∃ cur oth, d.jobs = cur ++ oth ∧
        cur.Perm (j.conn.jobs.filter (fun job => currentTeamJob teamNames job)) ∧
        ascendingID cur ∧
        oth.Perm (j.conn.jobs.filter (fun job => otherTeamPublicJob teamNames job)) ∧
        ascendingID oth :=
  ⟨fun hc => VisibleJobs_faultFree j hc teamNames log, fun _ h => VisibleJobs_jobs h⟩

/-- Witness of C3: the scenario of the spec, with job order 1, 5, 3. -/
theorem VisibleJobs_current_team_first_witness :
    (scenario.VisibleJobs ["ops"] []).1 = .ok scenarioDashboard ∧
    scenarioDashboard.jobs.map Job.ID = [1, 5, 3] ∧
    (∃ d, (scenario.VisibleJobs ["ops"] []).1 = .ok d) ∧
    ∃ cur oth, scenarioDashboard.jobs = cur ++ oth ∧
      cur.Perm (scenario.conn.jobs.filter (fun job => currentTeamJob ["ops"] job)) ∧
      ascendingID cur ∧
      oth.Perm (scenario.conn.jobs.filter (fun job => otherTeamPublicJob ["ops"] job)) ∧
      ascendingID oth :=
  ⟨rfl, by decide,
    (VisibleJobs_current_team_first scenario ["ops"] []).1 (healthy_faultFree _ _),
    (VisibleJobs_current_team_first scenario ["ops"] []).2 scenarioDashboard rfl⟩

/-- C4: a job appears in the dashboard of `VisibleJobs(teamNames)` if and only
if it is an active job of the store and its team is named or its pipeline is
public; with no team named, exactly the active jobs of public pipelines
appear. -/
theorem VisibleJobs_membership (j : jobFactory) (teamNames : List String) (log : Log) :
    (∀ d, (j.VisibleJobs teamNames log).1 = .ok d →
      ∀ job, job ∈ d.jobs ↔
        job ∈ j.conn.jobs ∧ job.active = true ∧
          (job.pipeline.team.name ∈ teamNames ∨ job.pipeline.public = true)) ∧
    (∀ d, (j.VisibleJobs [] log).1 = .ok d →
      ∀ job, job ∈ d.jobs ↔
        job ∈ j.conn.jobs ∧ job.active = true ∧ job.pipeline.public = true) := by
  have key : ∀ (names : List String) (d : Dashboard), (j.VisibleJobs names log).1 = .ok d →
      ∀ job, job ∈ d.jobs ↔
        job ∈ j.conn.jobs ∧ job.active = true ∧
          (job.pipeline.team.name ∈ names ∨ job.pipeline.public = true) := by
    intro names d h job
    obtain ⟨cur, oth, hd, hc, -, ho, -⟩ := VisibleJobs_jobs h
    rw [hd, List.mem_append, hc.mem_iff, ho.mem_iff]
    simp only [List.mem_filter, decide_eq_true_eq, currentTeamJob, otherTeamPublicJob]
    by_cases hn : job.pipeline.team.name ∈ names <;> simp [hn]
  refine ⟨key teamNames, fun d h job => ?_⟩
  rw [key [] d h job]
  simp

/-- Witness of C4: of the six jobs of `mixed`, a caller of team ops sees the
jobs 1, 5 and 3. -/
theorem VisibleJobs_membership_witness :
    (mixed.VisibleJobs ["ops"] []).1 = .ok mixedDashboard ∧
    ∀ job, job ∈ mixedDashboard.jobs ↔
      job ∈ mixed.conn.jobs ∧ job.active = true ∧
        (job.pipeline.team.name ∈ ["ops"] ∨ job.pipeline.public = true) :=
  ⟨rfl, (VisibleJobs_membership mixed ["ops"] []).1 mixedDashboard rfl⟩

/-- C5: the job sequence of `AllActiveJobs()` is exactly the active jobs of the
store, each once, in ascending job id, and no inactive job is in it; a
dashboard is returned whenever the store does not fail. -/
theorem AllActiveJobs_exactly_active (j : jobFactory) (log : Log) :
    (j.conn.faultFree → ∃ d, (j.AllActiveJobs log).1 = .ok d) ∧
    ∀ d, (j.AllActiveJobs log).1 = .ok d →
      d.jobs.Perm (j.conn.jobs.filter (fun job => job.active)) ∧
      ascendingID d.jobs ∧
      ∀ job, job.active = false → job ∉ d.jobs := by
  refine ⟨fun hc => AllActiveJobs_faultFree j hc log, fun d h => ?_⟩
  obtain ⟨hp, hs⟩ := AllActiveJobs_jobs h
  refine ⟨hp, hs, fun job hj hm => ?_⟩
  rw [hp.mem_iff, List.mem_filter] at hm
  simp [hj] at hm

/-- Witness of C5: the four active jobs of `mixed`, in the order 1, 3, 4, 5. -/
theorem AllActiveJobs_exactly_active_witness :
    (mixed.AllActiveJobs []).1 = .ok mixedActive ∧
    mixedActive.jobs.map Job.ID = [1, 3, 4, 5] ∧
    (∃ d, (mixed.AllActiveJobs []).1 = .ok d) ∧
    mixedActive.jobs.Perm (mixed.conn.jobs.filter (fun job => job.active)) ∧
    ascendingID mixedActive.jobs ∧
    ∀ job, job.active = false → job ∉ mixedActive.jobs :=
  ⟨rfl, by decide, (AllActiveJobs_exactly_active mixed []).1 (healthy_faultFree _ _),
    (AllActiveJobs_exactly_active mixed []).2 mixedActive rfl⟩

/-- C9: when the job ids of the store are unique, the dashboard of
`VisibleJobs(teamNames)` contains no job twice; the two selections exclude
each other. -/
theorem VisibleJobs_no_duplicates (j : jobFactory) (teamNames : List String) (log : Log)
    (hu : (j.conn.jobs.map Job.ID).Nodup) (d : Dashboard)
    (h : (j.VisibleJobs teamNames log).1 = .ok d) :
    (d.jobs.map Job.ID).Nodup ∧ d.jobs.Nodup ∧
      ∀ job, ¬ (currentTeamJob teamNames job ∧ otherTeamPublicJob teamNames job) := by
  obtain ⟨cur, oth, hd, hc, -, ho, -⟩ := VisibleJobs_jobs h
  have hn : (d.jobs.map Job.ID).Nodup := by
    rw [hd]
    refine (((hc.append ho).map Job.ID).nodup_iff).mpr ?_
    exact nodup_filter_append Job.ID _ _ _ hu (fun a ha hb => by
      simp only [decide_eq_true_eq, currentTeamJob, otherTeamPublicJob] at ha hb
      exact hb.2.1 ha.2)
  exact ⟨hn, List.Nodup.of_map _ hn, fun job hj => hj.2.2.1 hj.1.2⟩

/-- Witness of C9 on the scenario of the spec. -/
theorem VisibleJobs_no_duplicates_witness :
    (scenario.conn.jobs.map Job.ID).Nodup ∧
    (scenarioDashboard.jobs.map Job.ID).Nodup ∧ scenarioDashboard.jobs.Nodup ∧
      ∀ job, ¬ (currentTeamJob ["ops"] job ∧ otherTeamPublicJob ["ops"] job) :=
  ⟨by decide, VisibleJobs_no_duplicates scenario ["ops"] [] (by decide) scenarioDashboard rfl⟩

/-! ## Failure -/

/-- C6: `buildDashboard` returns the error of the first build lookup that fails
and no dashboard, and returns a dashboard only when all three lookups
succeeded; `VisibleJobs` returns the error of a failed `transition_build_id`
lookup although both job selections succeeded; on a store that does not fail,
`buildDashboard`, `VisibleJobs` and `AllActiveJobs` return a dashboard. -/
theorem buildDashboard_all_or_nothing (j : jobFactory) (jobs : Jobs)
    (teamNames : List String) (log : Log) :
    (∀ e, (j.getBuildsFrom .next_build_id (jobs.map Job.ID) log).1 = .error e →
      (j.buildDashboard jobs log).1 = .error e) ∧
    (∀ e, (j.getBuildsFrom .next_build_id (jobs.map Job.ID) log).1.toBool = true →
      (j.getBuildsFrom .latest_completed_build_id (jobs.map Job.ID)
        (log ++ [getBuildsFrom.query .next_build_id (jobs.map Job.ID)])).1 = .error e →
      (j.buildDashboard jobs log).1 = .error e) ∧
    (∀ e, (j.getBuildsFrom .next_build_id (jobs.map Job.ID) log).1.toBool = true →
      (j.getBuildsFrom .latest_completed_build_id (jobs.map Job.ID)
        (log ++ [getBuildsFrom.query .next_build_id (jobs.map Job.ID)])).1.toBool = true →
      (j.getBuildsFrom .transition_build_id (jobs.map Job.ID)
        (log ++ [getBuildsFrom.query .next_build_id (jobs.map Job.ID)] ++
          [getBuildsFrom.query .latest_completed_build_id (jobs.map Job.ID)])).1 = .error e →
      (j.buildDashboard jobs log).1 = .error e) ∧
    (∀ d, (j.buildDashboard jobs log).1 = .ok d →
      (j.getBuildsFrom .next_build_id (jobs.map Job.ID) log).1.toBool = true ∧
      (j.getBuildsFrom .latest_completed_build_id (jobs.map Job.ID)
        (log ++ [getBuildsFrom.query .next_build_id (jobs.map Job.ID)])).1.toBool = true ∧
      (j.getBuildsFrom .transition_build_id (jobs.map Job.ID)
        (log ++ [getBuildsFrom.query .next_build_id (jobs.map Job.ID)] ++
          [getBuildsFrom.query .latest_completed_build_id (jobs.map Job.ID)])).1.toBool = true) ∧
    (∀ cur oth e, (j.teamJobs teamNames log).1 = .ok cur →
      (j.otherTeamPublicJobs teamNames (log ++ [teamJobs.query teamNames])).1 = .ok oth →
      (j.getBuildsFrom .next_build_id ((cur ++ oth).map Job.ID)
        (log ++ [teamJobs.query teamNames] ++
          [otherTeamPublicJobs.query teamNames])).1.toBool = true →
      (j.getBuildsFrom .latest_completed_build_id ((cur ++ oth).map Job.ID)
        (log ++ [teamJobs.query teamNames] ++ [otherTeamPublicJobs.query teamNames] ++
          [getBuildsFrom.query .next_build_id ((cur ++ oth).map Job.ID)])).1.toBool = true →
      (j.getBuildsFrom .transition_build_id ((cur ++ oth).map Job.ID)
        (log ++ [teamJobs.query teamNames] ++ [otherTeamPublicJobs.query teamNames] ++
          [getBuildsFrom.query .next_build_id ((cur ++ oth).map Job.ID)] ++
          [getBuildsFrom.query .latest_completed_build_id ((cur ++ oth).map Job.ID)])).1 =
        .error e →
      (j.VisibleJobs teamNames log).1 = .error e) ∧
    (j.conn.faultFree →
      (∃ d, (j.buildDashboard jobs log).1 = .ok d) ∧
      (∃ d, (j.VisibleJobs teamNames log).1 = .ok d) ∧
      (∃ d, (j.AllActiveJobs log).1 = .ok d)) := by
  have third : ∀ (js : Jobs) (lg : Log) (e : Error),
      (j.getBuildsFrom .next_build_id (js.map Job.ID) lg).1.toBool = true →
      (j.getBuildsFrom .latest_completed_build_id (js.map Job.ID)
        (lg ++ [getBuildsFrom.query .next_build_id (js.map Job.ID)])).1.toBool = true →
      (j.getBuildsFrom .transition_build_id (js.map Job.ID)
        (lg ++ [getBuildsFrom.query .next_build_id (js.map Job.ID)] ++
          [getBuildsFrom.query .latest_completed_build_id (js.map Job.ID)])).1 = .error e →
      (j.buildDashboard js lg).1 = .error e := by
    intro js lg e h₁ h₂ h₃
    rw [buildDashboard_fst, h₃]
    cases e₁ : (j.getBuildsFrom .next_build_id (js.map Job.ID) lg).1 with
    | error e' =>
      rw [e₁] at h₁
      exact absurd h₁ (by simp [Except.toBool])
    | ok m₁ =>
      cases e₂ : (j.getBuildsFrom .latest_completed_build_id (js.map Job.ID)
        (lg ++ [getBuildsFrom.query .next_build_id (js.map Job.ID)])).1 with
      | error e' =>
        rw [e₂] at h₂
        exact absurd h₂ (by simp [Except.toBool])
      | ok m₂ => rfl
  refine ⟨fun e h => ?_, fun e h₁ h₂ => ?_, third jobs log, fun d h => ?_,
    fun cur oth e hc ho h₁ h₂ h₃ => ?_, fun hc => ?_⟩
  · rw [buildDashboard_fst, h]
  · rw [buildDashboard_fst, h₂]
    cases e₁ : (j.getBuildsFrom .next_build_id (jobs.map Job.ID) log).1 with
    | error e' =>
      rw [e₁] at h₁
      exact absurd h₁ (by simp [Except.toBool])
    | ok m₁ => rfl
  · rw [buildDashboard_fst] at h
    cases e₁ : (j.getBuildsFrom .next_build_id (jobs.map Job.ID) log).1 with
    | error e' => simp [e₁] at h
    | ok m₁ =>
      cases e₂ : (j.getBuildsFrom .latest_completed_build_id (jobs.map Job.ID)
        (log ++ [getBuildsFrom.query .next_build_id (jobs.map Job.ID)])).1 with
      | error e' => simp [e₁, e₂] at h
      | ok m₂ =>
        cases e₃ : (j.getBuildsFrom .transition_build_id (jobs.map Job.ID)
          (log ++ [getBuildsFrom.query .next_build_id (jobs.map Job.ID)] ++
            [getBuildsFrom.query .latest_completed_build_id (jobs.map Job.ID)])).1 with
        | error e' =>
          rw [e₁, e₂, e₃] at h
          exact absurd h (by simp)
        | ok m₃ => exact ⟨rfl, rfl, rfl⟩
  · rw [VisibleJobs_fst, hc, ho]
    exact third (cur ++ oth) _ e h₁ h₂ h₃
  · exact ⟨buildDashboard_faultFree j hc jobs log, VisibleJobs_faultFree j hc teamNames log,
      AllActiveJobs_faultFree j hc log⟩

/-- Witness of C6: each of the three lookups failing in turn, the failure of
the `transition_build_id` lookup seen through `VisibleJobs`, and the store of
the scenario, which does not fail. -/
theorem buildDashboard_all_or_nothing_witness :
    (flaky .next_build_id).buildDashboard [opsJob1] [] = (.error "connection reset",
      [getBuildsFrom.query .next_build_id [1]]) ∧
    ((flaky .latest_completed_build_id).buildDashboard [opsJob1] []).1 =
      .error "connection reset" ∧
    ((flaky .transition_build_id).buildDashboard [opsJob1] []).1 =
      .error "connection reset" ∧
    ((flaky .transition_build_id).teamJobs ["ops"] []).1 = .ok [opsJob1, opsJob5] ∧
    ((flaky .transition_build_id).VisibleJobs ["ops"] []).1 = .error "connection reset" ∧
    ((scenario.buildDashboard [opsJob1] []).1.toBool = true ∧
      (scenario.getBuildsFrom .transition_build_id [1]
        [getBuildsFrom.query .next_build_id [1],
          getBuildsFrom.query .latest_completed_build_id [1]]).1.toBool = true) ∧
    ((∃ d, (scenario.buildDashboard [opsJob1] []).1 = .ok d) ∧
      (∃ d, (scenario.VisibleJobs ["ops"] []).1 = .ok d) ∧
      (∃ d, (scenario.AllActiveJobs []).1 = .ok d)) :=
  ⟨Prod.ext
      ((buildDashboard_all_or_nothing (flaky .next_build_id) [opsJob1] [] []).1 _ rfl) rfl,
    (buildDashboard_all_or_nothing (flaky .latest_completed_build_id) [opsJob1] [] []).2.1 _
      rfl rfl,
    (buildDashboard_all_or_nothing (flaky .transition_build_id) [opsJob1] [] []).2.2.1 _
      rfl rfl rfl,
    rfl,
    (buildDashboard_all_or_nothing (flaky .transition_build_id) [] ["ops"] []).2.2.2.2.1
      [opsJob1, opsJob5] [devJob3] _ rfl rfl rfl rfl rfl,
    ⟨rfl, ((buildDashboard_all_or_nothing scenario [opsJob1] [] []).2.2.2.1
      [⟨opsJob1, some build11, some build10, none⟩] rfl).2.2⟩,
    (buildDashboard_all_or_nothing scenario [opsJob1] ["ops"] []).2.2.2.2.2
      (healthy_faultFree _ _)⟩

/-! ## The statements issued -/

theorem buildRows_nil (conn : Conn) (col : PointerColumn) :
    conn.rows (getBuildsFrom.query col []) = [] := by
  rw [List.eq_nil_iff_forall_not_mem]
  intro r hr
  obtain ⟨b, -, job, -, -, h, -⟩ := (buildRows_mem _ _ _ _).mp hr
  exact absurd h (List.not_mem_nil _)

theorem buildDashboard_snd_base (j : jobFactory) (jobs : Jobs) (log : Log) :
    ∃ issued, (j.buildDashboard jobs log).2 = log ++ issued ∧ issued.length ≤ 3 ∧
      ∀ q ∈ issued, q.base = .buildsQuery := by
  unfold jobFactory.buildDashboard
  simp only [getBuildsFrom_eq]
  have b : ∀ col, (getBuildsFrom.query col (jobs.map Job.ID)).base = .buildsQuery :=
    fun _ => rfl
  cases j.conn.queryErr log (getBuildsFrom.query .next_build_id (jobs.map Job.ID)) with
  | some e => exact ⟨[_], rfl, by simp, by simp [b]⟩
  | none =>
    simp only
    cases getBuildsFrom.scan j.conn
      (j.conn.rows (getBuildsFrom.query .next_build_id (jobs.map Job.ID))) BuildMap.empty with
    | error e => exact ⟨[_], rfl, by simp, by simp [b]⟩
    | ok m₁ =>
      simp only
      cases j.conn.queryErr (log ++ [getBuildsFrom.query .next_build_id (jobs.map Job.ID)])
        (getBuildsFrom.query .latest_completed_build_id (jobs.map Job.ID)) with
      | some e =>
        exact ⟨[getBuildsFrom.query .next_build_id (jobs.map Job.ID),
          getBuildsFrom.query .latest_completed_build_id (jobs.map Job.ID)],
          by simp, by simp, by simp [b]⟩
      | none =>
        simp only
        cases getBuildsFrom.scan j.conn
          (j.conn.rows (getBuildsFrom.query .latest_completed_build_id (jobs.map Job.ID)))
          BuildMap.empty with
        | error e =>
          exact ⟨[getBuildsFrom.query .next_build_id (jobs.map Job.ID),
            getBuildsFrom.query .latest_completed_build_id (jobs.map Job.ID)],
            by simp, by simp, by simp [b]⟩
        | ok m₂ =>
          simp only
          refine ⟨[getBuildsFrom.query .next_build_id (jobs.map Job.ID),
            getBuildsFrom.query .latest_completed_build_id (jobs.map Job.ID),
            getBuildsFrom.query .transition_build_id (jobs.map Job.ID)], ?_, by simp,
            by simp [b]⟩
          cases j.conn.queryErr
            (log ++ [getBuildsFrom.query .next_build_id (jobs.map Job.ID)] ++
              [getBuildsFrom.query .latest_completed_build_id (jobs.map Job.ID)])
            (getBuildsFrom.query .transition_build_id (jobs.map Job.ID)) with
          | some e => simp
          | none =>
            simp only
            cases getBuildsFrom.scan j.conn
              (j.conn.rows (getBuildsFrom.query .transition_build_id (jobs.map Job.ID)))
              BuildMap.empty with
            | error e => simp
            | ok m₃ => simp

theorem lookups_only (issued : Log) (h : ∀ q ∈ issued, q.base = .buildsQuery) :
    jobSelections issued = 0 ∧ buildLookups issued = issued.length := by
  unfold jobSelections buildLookups
  constructor
  · rw [List.countP_eq_zero]
    intro q hq
    simp [h q hq]
  · rw [List.countP_eq_length]
    intro q hq
    simp [h q hq]

theorem VisibleJobs_snd (j : jobFactory) (teamNames : List String) (log : Log) :
    ∃ issued, (j.VisibleJobs teamNames log).2 = log ++ issued ∧
      jobSelections issued ≤ 2 ∧ buildLookups issued ≤ 3 := by
  unfold jobFactory.VisibleJobs
  simp only [teamJobs_eq, otherTeamPublicJobs_eq]
  have t : (teamJobs.query teamNames).base = .jobsQuery := rfl
  have o : (otherTeamPublicJobs.query teamNames).base = .jobsQuery := rfl
  cases j.conn.queryErr log (teamJobs.query teamNames) with
  | some e => exact ⟨[_], rfl, by simp [jobSelections, t], by simp [buildLookups, t]⟩
  | none =>
    simp only
    cases scanJobs j.conn (j.conn.rows (teamJobs.query teamNames)) with
    | error e => exact ⟨[_], rfl, by simp [jobSelections, t], by simp [buildLookups, t]⟩
    | ok cur =>
      simp only
      cases j.conn.queryErr (log ++ [teamJobs.query teamNames])
        (otherTeamPublicJobs.query teamNames) with
      | some e =>
        exact ⟨[teamJobs.query teamNames, otherTeamPublicJobs.query teamNames], by simp,
          by simp [jobSelections, t, o], by simp [buildLookups, t, o]⟩
      | none =>
        simp only
        cases scanJobs j.conn (j.conn.rows (otherTeamPublicJobs.query teamNames)) with
        | error e =>
          exact ⟨[teamJobs.query teamNames, otherTeamPublicJobs.query teamNames], by simp,
            by simp [jobSelections, t, o], by simp [buildLookups, t, o]⟩
        | ok oth =>
          simp only
          obtain ⟨issued, h, hl, hb⟩ := buildDashboard_snd_base j (cur ++ oth)
            (log ++ [teamJobs.query teamNames] ++ [otherTeamPublicJobs.query teamNames])
          obtain ⟨h₀, h₁⟩ := lookups_only issued hb
          refine ⟨teamJobs.query teamNames :: otherTeamPublicJobs.query teamNames :: issued,
            by rw [h]; simp, ?_, ?_⟩
          · unfold jobSelections at h₀ ⊢
            simp [List.countP_cons, t, o, h₀]
          · unfold buildLookups at h₁ ⊢
            simp only [List.countP_cons, t, o, h₁]
            simpa using hl

theorem AllActiveJobs_snd (j : jobFactory) (log : Log) :
    ∃ issued, (j.AllActiveJobs log).2 = log ++ issued ∧
      jobSelections issued ≤ 1 ∧ buildLookups issued ≤ 3 := by
  unfold jobFactory.AllActiveJobs Conn.Query
  have a : AllActiveJobs.query.base = .jobsQuery := rfl
  cases j.conn.queryErr log AllActiveJobs.query with
  | some e => exact ⟨[_], rfl, by simp [jobSelections, a], by simp [buildLookups, a]⟩
  | none =>
    simp only
    cases scanJobs j.conn (j.conn.rows AllActiveJobs.query) with
    | error e => exact ⟨[_], rfl, by simp [jobSelections, a], by simp [buildLookups, a]⟩
    | ok jobs =>
      simp only
      obtain ⟨issued, h, hl, hb⟩ := buildDashboard_snd_base j jobs (log ++ [AllActiveJobs.query])
      obtain ⟨h₀, h₁⟩ := lookups_only issued hb
      refine ⟨AllActiveJobs.query :: issued, by rw [h]; simp, ?_, ?_⟩
      · unfold jobSelections at h₀ ⊢
        simp [List.countP_cons, a, h₀]
      · unfold buildLookups at h₁ ⊢
        simp only [List.countP_cons, a, h₁]
        simpa using hl

/-- C7, as the code has it: on an empty job list `buildDashboard` does not
return early.  It always issues the `next_build_id` lookup, with an empty set
of job ids, and when the three lookup statements succeed it has issued all
three and returns the empty dashboard. -/
theorem buildDashboard_empty_issues_lookups (j : jobFactory) (log : Log) :
    (∃ rest, (j.buildDashboard [] log).2 =
      log ++ getBuildsFrom.query .next_build_id [] :: rest) ∧
    (j.conn.queryErr log (getBuildsFrom.query .next_build_id []) = none →
      j.conn.queryErr (log ++ [getBuildsFrom.query .next_build_id []])
        (getBuildsFrom.query .latest_completed_build_id []) = none →
      j.conn.queryErr (log ++ [getBuildsFrom.query .next_build_id []] ++
        [getBuildsFrom.query .latest_completed_build_id []])
        (getBuildsFrom.query .transition_build_id []) = none →
      j.buildDashboard [] log = (.ok [],
        log ++ [getBuildsFrom.query .next_build_id []] ++
          [getBuildsFrom.query .latest_completed_build_id []] ++
          [getBuildsFrom.query .transition_build_id []])) := by
  constructor
  · obtain ⟨rest, h, -⟩ := buildDashboard_snd j [] log
    exact ⟨rest, h⟩
  · intro h₁ h₂ h₃
    have e : ∀ col lg, j.conn.queryErr lg (getBuildsFrom.query col []) = none →
        j.getBuildsFrom col [] lg = (.ok BuildMap.empty, lg ++ [getBuildsFrom.query col []]) := by
      intro col lg h
      rw [getBuildsFrom_eq]
      simp only [h, buildRows_nil, getBuildsFrom.scan]
    exact buildDashboard_of_lookups j [] log _ _ _ _ _ _ (e _ _ h₁) (e _ _ h₂) (e _ _ h₃)

/-- Witness of C7 as amended, on the store of the scenario. -/
theorem buildDashboard_empty_issues_lookups_witness :
    scenario.buildDashboard [] [] = (.ok [],
      [] ++ [getBuildsFrom.query .next_build_id []] ++
        [getBuildsFrom.query .latest_completed_build_id []] ++
        [getBuildsFrom.query .transition_build_id []]) :=
  (buildDashboard_empty_issues_lookups scenario []).2 rfl rfl rfl

/-- The claim C7 fails: on the empty job list `buildDashboard` issues three
build-resolution statements. -/
theorem buildDashboard_empty_not_silent :
    (scenario.buildDashboard [] []).2 ≠ [] ∧ buildLookups (scenario.buildDashboard [] []).2 = 3 := by
  decide

/-- C10, as the code has it: `VisibleJobs` issues at most five statements, at
most two job selections and at most three build lookups; `AllActiveJobs` issues
at most four, at most one job selection and at most three build lookups. -/
theorem entry_points_statement_bound (j : jobFactory) (teamNames : List String) (log : Log) :
    (∃ issued, (j.VisibleJobs teamNames log).2 = log ++ issued ∧ issued.length ≤ 5 ∧
      jobSelections issued ≤ 2 ∧ buildLookups issued ≤ 3) ∧
    (∃ issued, (j.AllActiveJobs log).2 = log ++ issued ∧ issued.length ≤ 4 ∧
      jobSelections issued ≤ 1 ∧ buildLookups issued ≤ 3) := by
  constructor
  · obtain ⟨issued, h, hj, hb⟩ := VisibleJobs_snd j teamNames log
    refine ⟨issued, h, ?_, hj, hb⟩
    have hl := VisibleJobs_snd_length j teamNames log
    rw [h, List.length_append] at hl
    omega
  · obtain ⟨issued, h, hj, hb⟩ := AllActiveJobs_snd j log
    refine ⟨issued, h, ?_, hj, hb⟩
    have hl := AllActiveJobs_snd_length j log
    rw [h, List.length_append] at hl
    omega

/-- The claim C10 fails: `VisibleJobs` issues five statements on the scenario
of the spec, two of them job selections. -/
theorem VisibleJobs_issues_five :
    ¬ ((scenario.VisibleJobs ["ops"] []).2.length ≤ 4) ∧
    (scenario.VisibleJobs ["ops"] []).2.length = 5 ∧
    jobSelections (scenario.VisibleJobs ["ops"] []).2 = 2 := by
  decide

/-! ## Pointer resolution -/

theorem buildDashboard_build {j : jobFactory} {jobs : Jobs} {log : Log} {d : Dashboard}
    (h : (j.buildDashboard jobs log).1 = .ok d) (col : PointerColumn) :
    ∃ m lg, (j.getBuildsFrom col (jobs.map Job.ID) lg).1 = .ok m ∧
      ∀ e ∈ d, e.build col = m e.Job.ID := by
  obtain ⟨m₁, m₂, m₃, log₁, log₂, log₃, h₁, h₂, h₃, rfl⟩ := buildDashboard_ok h
  cases col with
  | next_build_id =>
    refine ⟨m₁, log, by rw [h₁], fun e he => ?_⟩
    obtain ⟨job, -, rfl⟩ := List.mem_map.mp he
    rfl
  | latest_completed_build_id =>
    refine ⟨m₂, log₁, by rw [h₂], fun e he => ?_⟩
    obtain ⟨job, -, rfl⟩ := List.mem_map.mp he
    rfl
  | transition_build_id =>
    refine ⟨m₃, log₂, by rw [h₃], fun e he => ?_⟩
    obtain ⟨job, -, rfl⟩ := List.mem_map.mp he
    rfl

/-- An entry of the map comes from a job row selected by id whose column names
the build. -/
theorem getBuildsFrom_source {j : jobFactory} {col : PointerColumn} {jobIDs : List Int}
    {log : Log} {m : BuildMap} (h : (j.getBuildsFrom col jobIDs log).1 = .ok m)
    (k : Int) (b : Build) (hk : m k = some b) :
    b.JobID = k ∧ b ∈ j.conn.builds ∧
      ∃ job ∈ j.conn.jobs, job.ID ∈ jobIDs ∧ job.column col = some b.id := by
  obtain ⟨hkey, r, hr, hb⟩ := getBuildsFrom_lookup h k b hk
  obtain ⟨b', hb', job, hjob, rfl, hid, hcol⟩ := (buildRows_mem _ _ _ _).mp hr
  simp only [Option.some.injEq] at hb
  subst hb
  exact ⟨hkey, hb', job, hjob, hid, hcol⟩

/-- C8, as the code has it: for a store with unique job ids and unique build
ids in which a pointer column that names an existing build names a build of
that very job, and when neither the statement nor a decode fails,
`getBuildsFrom(col, jobIDs)` returns a map in which job id k maps to build b
exactly when k is in `jobIDs` and the column of job k names the existing build
b; a job whose column is unset or names no existing build has no entry, and the
field of its dashboard entry is absent. -/
theorem getBuildsFrom_resolves (j : jobFactory) (col : PointerColumn) (jobIDs : List Int)
    (log : Log) (hjobs : (j.conn.jobs.map Job.ID).Nodup)
    (hbuilds : (j.conn.builds.map Build.id).Nodup)
    (hown : ∀ job ∈ j.conn.jobs, ∀ b ∈ j.conn.builds,
      job.column col = some b.id → b.JobID = job.ID)
    (hq : j.conn.queryErr log (getBuildsFrom.query col jobIDs) = none)
    (hscan : ∀ b ∈ j.conn.builds, j.conn.scanBuildErr b = none) :
    (∃ m, (j.getBuildsFrom col jobIDs log).1 = .ok m ∧
      (∀ k b, m k = some b ↔
        k ∈ jobIDs ∧ b ∈ j.conn.builds ∧
          ∃ job ∈ j.conn.jobs, job.ID = k ∧ job.column col = some b.id) ∧
      (∀ job ∈ j.conn.jobs, job.column col = none → m job.ID = none) ∧
      (∀ job ∈ j.conn.jobs, (∀ b ∈ j.conn.builds, job.column col ≠ some b.id) →
        m job.ID = none)) ∧
    (∀ jobs lg d, (j.buildDashboard jobs lg).1 = .ok d → ∀ e ∈ d,
      (∀ job ∈ j.conn.jobs, job.ID = e.Job.ID →
        ∀ b ∈ j.conn.builds, job.column col ≠ some b.id) →
      e.build col = none) := by
  constructor
  · obtain ⟨m, hm⟩ := getBuildsFrom_total j col jobIDs log hq hscan
    have hm₁ : (j.getBuildsFrom col jobIDs log).1 = .ok m := by rw [hm]
    have hscan' : getBuildsFrom.scan j.conn (j.conn.rows (getBuildsFrom.query col jobIDs))
        BuildMap.empty = .ok m := by
      have := hm₁
      rw [getBuildsFrom_eq] at this
      simpa only [hq] using this
    have fwd : ∀ k b, m k = some b →
        k ∈ jobIDs ∧ b ∈ j.conn.builds ∧
          ∃ job ∈ j.conn.jobs, job.ID = k ∧ job.column col = some b.id := by
      intro k b hk
      obtain ⟨hkey, hb, job, hjob, hid, hcol⟩ := getBuildsFrom_source hm₁ k b hk
      have : job.ID = k := by rw [← hown job hjob b hb hcol, hkey]
      exact ⟨this ▸ hid, hb, job, hjob, this, hcol⟩
    have iff : ∀ k b, m k = some b ↔
        k ∈ jobIDs ∧ b ∈ j.conn.builds ∧
          ∃ job ∈ j.conn.jobs, job.ID = k ∧ job.column col = some b.id := by
      intro k b
      refine ⟨fwd k b, ?_⟩
      rintro ⟨hk, hb, job, hjob, rfl, hcol⟩
      have hr : (⟨job, some b⟩ : Row) ∈ j.conn.rows (getBuildsFrom.query col jobIDs) :=
        (buildRows_mem _ _ _ _).mpr ⟨b, hb, job, hjob, rfl, hk, hcol⟩
      have hs := (scan_mem j.conn _ _ _ hscan').2 _ hr b rfl
      rw [hown job hjob b hb hcol] at hs
      obtain ⟨b', hb'⟩ := Option.isSome_iff_exists.mp hs
      obtain ⟨-, hb'm, job', hjob', hid', hcol'⟩ := fwd _ _ hb'
      have hj : job' = job := List.inj_on_of_nodup_map hjobs hjob' hjob hid'
      subst hj
      rw [hcol] at hcol'
      have hbb : b' = b :=
        List.inj_on_of_nodup_map hbuilds hb'm hb (Option.some.inj hcol').symm
      rw [hb', hbb]
    refine ⟨m, hm₁, iff, fun job hjob hnone => ?_, fun job hjob hno => ?_⟩
    · cases hmk : m job.ID with
      | none => rfl
      | some b =>
        obtain ⟨-, -, job', hjob', hid', hcol'⟩ := fwd _ _ hmk
        have hj : job' = job := List.inj_on_of_nodup_map hjobs hjob' hjob hid'
        subst hj
        rw [hnone] at hcol'
        exact absurd hcol' (by simp)
    · cases hmk : m job.ID with
      | none => rfl
      | some b =>
        obtain ⟨-, hb, job', hjob', hid', hcol'⟩ := fwd _ _ hmk
        have hj : job' = job := List.inj_on_of_nodup_map hjobs hjob' hjob hid'
        subst hj
        exact absurd hcol' (hno b hb)
  · intro jobs lg d hd e he hno
    obtain ⟨m, lg', hm, hfield⟩ := buildDashboard_build hd col
    rw [hfield e he]
    cases hmk : m e.Job.ID with
    | none => rfl
    | some b =>
      obtain ⟨hkey, hb, job, hjob, -, hcol⟩ := getBuildsFrom_source hm _ b hmk
      have hid : job.ID = e.Job.ID := by rw [← hown job hjob b hb hcol, hkey]
      exact absurd hcol (hno job hjob hid b hb)

/-- Witness of C8 as amended: the `next_build_id` lookup on the scenario, in
which job 1 names the build 11, job 5 names none and job 3 names the build 99,
which does not exist. -/
theorem getBuildsFrom_resolves_witness :
    (∃ m, (scenario.getBuildsFrom .next_build_id [1, 5, 3] []).1 = .ok m ∧
      (∀ k b, m k = some b ↔
        k ∈ [1, 5, 3] ∧ b ∈ scenario.conn.builds ∧
          ∃ job ∈ scenario.conn.jobs, job.ID = k ∧
            job.column .next_build_id = some b.id) ∧
      (∀ job ∈ scenario.conn.jobs, job.column .next_build_id = none → m job.ID = none) ∧
      (∀ job ∈ scenario.conn.jobs,
        (∀ b ∈ scenario.conn.builds, job.column .next_build_id ≠ some b.id) →
        m job.ID = none)) ∧
    (∀ jobs lg d, (scenario.buildDashboard jobs lg).1 = .ok d → ∀ e ∈ d,
      (∀ job ∈ scenario.conn.jobs, job.ID = e.Job.ID →
        ∀ b ∈ scenario.conn.builds, job.column .next_build_id ≠ some b.id) →
      e.build .next_build_id = none) :=
  getBuildsFrom_resolves scenario .next_build_id [1, 5, 3] [] (by decide) (by decide)
    (by decide) rfl (fun _ _ => rfl)

/-- The claim C8 fails: the column `next_build_id` of job 1 is set and equals
the id of an existing build row, yet job 1 has no entry in the map and its
dashboard entry has no `NextBuild`, because the map is keyed by the job id of
the build, which is 2. -/
theorem getBuildsFrom_stray_build_absent :
    strayJob ∈ stray.conn.jobs ∧ strayJob.ID = 1 ∧ strayBuild ∈ stray.conn.builds ∧
    strayJob.column .next_build_id = some strayBuild.id ∧
    (∃ m, (stray.getBuildsFrom .next_build_id [1] []).1 = .ok m ∧ m 1 = none) ∧
    (stray.buildDashboard [strayJob] []).1 = .ok [⟨strayJob, none, none, none⟩] :=
  ⟨by decide, rfl, by decide, rfl, ⟨BuildMap.empty.set 2 strayBuild, rfl, rfl⟩, rfl⟩

end db
